import Mathlib

/-!
Shallow embedding of `src/wrappers/__init__.py` — the `RenderRerun` gymnasium
wrapper that records each environment step to a Rerun recording — together
with proofs of the behavioural claims about it.

The wrapped environment and the Rerun SDK are external collaborators: the
environment is modelled as a deterministic state machine over an abstract
state type, and every Rerun SDK call performed by the wrapper is recorded as
an event in an observable trace, tagged with the recording stream it was
issued on.
-/

set_option linter.unusedSectionVars false

namespace GymRerun

/-- Viewer mode of the constructor: Python `Literal["script", "notebook", False]`. -/
inductive Viewer : Type
  | script
  | notebook
  | off
deriving DecidableEq

/-- Python truthiness of the `viewer` argument (`False` is falsy, the two
string modes are truthy). -/
def Viewer.truthy : Viewer → Bool
  | .off => false
  | .script => true
  | .notebook => true

/-- The two `rr.RecordingStream` instances the wrapper can create: the
file-backed one (application id `rerun_wrapper_file`) and the viewer one
(application id `rerun_wrapper_viewer`). -/
inductive SinkId : Type
  | fileSink
  | viewerSink
deriving DecidableEq

/-- Python truthiness of the `filename: str | None` argument: `None` and the
empty string are falsy. -/
def filenameTruthy : Option String → Bool
  | none => false
  | some s => !(s == "")

/-- `rr.Image(frame).compress(jpeg_quality=...)`: a frame together with the
JPEG quality it was compressed at. -/
structure CompressedImage (Frame : Type) where
  frame : Frame
  jpeg_quality : Nat
deriving DecidableEq

/-- One tab of the blueprint, as built in `update_blueprint`: an
`rrb.Horizontal` named after the episode, holding a `Spatial2DView` on the
episode's frames and a `Vertical` of `TextLogView`s for action and reward. -/
structure Tab where
  name : String
  spatial_view : String × String
  text_views : List (String × String)
deriving DecidableEq

/-- The tab `update_blueprint` appends for a newly seen episode name. -/
def mkTab (episode_name : String) : Tab :=
  { name := episode_name
    spatial_view := ("frames", "/" ++ episode_name ++ "/frames")
    text_views := ["action", "reward"].map fun n => (n, "/" ++ episode_name ++ "/" ++ n) }

/-- The full blueprint sent by `update_blueprint`: all accumulated tabs plus
the fixed panel states. -/
structure Blueprint where
  tabs : List Tab
  blueprint_panel : String
  selection_panel : String
  time_panel : String
deriving DecidableEq

/-- A single Rerun SDK call performed on one recording stream. -/
inductive RerunEvent (Frame : Type) : Type
  | set_time (timeline : String) (sequence : Nat)
  | text_log (path : String) (text : String)
  | image_log (path : String) (image : CompressedImage Frame)
  | send_blueprint (blueprint : Blueprint)
  | save (filename : String)
  | spawn
  | notebook_show
  | disconnect
deriving DecidableEq

/-- An entry of the wrapper's observable side-effect trace: an SDK call on a
specific recording stream, or the final `env.close()` delegation. -/
inductive TraceEvent (Frame : Type) : Type
  | sink (s : SinkId) (e : RerunEvent Frame)
  | env_close
deriving DecidableEq

/-- The five-tuple `(obsv, reward, terminated, truncated, info)` returned by
`step`. -/
structure StepOutput (Obs R Info : Type) where
  obs : Obs
  reward : R
  terminated : Bool
  truncated : Bool
  info : Info

/-- The wrapped environment: an abstract deterministic state machine exposing
`render_mode`, `step`, `reset` and `render`. -/
structure GymEnv (S Obs Act R Info Opts Frame : Type) where
  render_mode : Option String
  stepFn : S → Act → S × StepOutput Obs R Info
  resetFn : S → Option Int → Option Opts → S × (Obs × Info)
  renderFn : S → Frame

/-- The state of a `RenderRerun` wrapper instance: the wrapped environment
and its current state, the counters and configuration set in `__init__`, the
list `self.recs` of active recording streams, the blueprint bookkeeping
(`self.episode_names`, `self.tabs`) and the trace of SDK calls made so far. -/
structure RenderRerun (S Obs Act R Info Opts Frame : Type) where
  env : GymEnv S Obs Act R Info Opts Frame
  envState : S
  episode : Nat
  frame : Nat
  skip_episodes : Nat
  viewer : Viewer
  recs : List SinkId
  episode_names : List String
  tabs : List Tab
  events : List (TraceEvent Frame)

variable {S Obs Act R Info Opts Frame : Type}

/-- Python `s.endswith(post)`. -/
def strEndsWith (s post : String) : Bool := List.isSuffixOf post.data s.data

/-- The SDK calls performed by `render()`: dispatch on the viewer mode
(`spawn` for "script", `notebook_show` for "notebook", nothing otherwise). -/
def renderEvents (v : Viewer) : List (TraceEvent Frame) :=
  match v with
  | .script => [.sink .viewerSink .spawn]
  | .notebook => [.sink .viewerSink .notebook_show]
  | .off => []

/-- `render()`: side-effect only viewer dispatch on the viewer recording
stream. -/
def RenderRerun.render (w : RenderRerun S Obs Act R Info Opts Frame) :
    RenderRerun S Obs Act R Info Opts Frame :=
  { w with events := w.events ++ renderEvents w.viewer }

/-- `__init__`: asserts the render mode preconditions, initialises the
counters, opens the file stream when a filename is given, always creates the
viewer stream (calling `render()` first when a viewer mode is requested) and
appends it to `self.recs`, and initialises the blueprint state. The two
`assert` statements come before any stream is created, so a failing one
yields an error with an empty trace. -/
def RenderRerun.init (env : GymEnv S Obs Act R Info Opts Frame) (s0 : S)
    (filename : Option String) (skip_episodes : Nat) (viewer : Viewer) :
    Except String (RenderRerun S Obs Act R Info Opts Frame) :=
  match env.render_mode with
  | none => Except.error "assert env.render_mode is not None"
  | some m =>
    if strEndsWith m "_list" then
      Except.error "assert not env.render_mode endswith _list"
    else
      Except.ok
        { env := env
          envState := s0
          episode := 0
          frame := 0
          skip_episodes := skip_episodes
          viewer := viewer
          recs := (if filenameTruthy filename then [SinkId.fileSink] else []) ++
            [SinkId.viewerSink]
          episode_names := []
          tabs := []
          events :=
            (if filenameTruthy filename then
              [TraceEvent.sink SinkId.fileSink (RerunEvent.save (filename.getD ""))]
            else []) ++
            (if viewer.truthy then renderEvents viewer else []) }

/-- The `render_mode` property: the wrapped environment's render mode with
the `_rerun` suffix appended (Python f-string formatting of `None` yields
the string "None"). -/
def RenderRerun.render_mode (w : RenderRerun S Obs Act R Info Opts Frame) : String :=
  (match w.env.render_mode with
   | some m => m
   | none => "None") ++ "_rerun"

/-- The logging-eligibility test of `step`:
`(self.skip_episodes in [0, 1]) or (self.episode % self.skip_episodes == 1)`. -/
def shouldLog (skip_episodes episode : Nat) : Bool :=
  (skip_episodes == 0 || skip_episodes == 1) || (episode % skip_episodes == 1)

/-- Python `f"{n:05}"`: decimal digits left-padded with zeros to width 5. -/
def pad5 (n : Nat) : String :=
  let s := toString n
  if s.length < 5 then String.mk (List.replicate (5 - s.length) '0') ++ s else s

/-- The per-step episode namespace `f"episode{self.episode:05}"`. -/
def episodeName (episode : Nat) : String := "episode" ++ pad5 episode

/-- The sequence of SDK calls `logger` issues on one recording stream:
set the "frame" timeline to the current frame counter, log the stringified
reward, a "DONE!" marker only when terminated, an "Interrupted" marker only
when truncated, the stringified action, and the compressed frame image. -/
def loggedEvents (episode_name reward actionStr : String) (done truncated : Bool)
    (image : CompressedImage Frame) (fr : Nat) : List (RerunEvent Frame) :=
  [.set_time "frame" fr,
   .text_log (episode_name ++ "/reward") reward] ++
  (if done then [.text_log (episode_name ++ "/done") "DONE!"] else []) ++
  (if truncated then [.text_log (episode_name ++ "/interrupted") "Interrupted"] else []) ++
  [.text_log (episode_name ++ "/action") actionStr,
   .image_log (episode_name ++ "/frames") image]

/-- `update_blueprint(episode_name)`: on a not-yet-seen episode name, mark it
seen, append its tab, rebuild the whole blueprint from all accumulated tabs
and send it to every recording stream; otherwise do nothing. -/
def RenderRerun.update_blueprint (w : RenderRerun S Obs Act R Info Opts Frame)
    (episode_name : String) : RenderRerun S Obs Act R Info Opts Frame :=
  if episode_name ∈ w.episode_names then w
  else
    { w with
      episode_names := episode_name :: w.episode_names
      tabs := w.tabs ++ [mkTab episode_name]
      events := w.events ++ (w.recs.map fun s =>
        TraceEvent.sink s (RerunEvent.send_blueprint
          { tabs := w.tabs ++ [mkTab episode_name]
            blueprint_panel := "collapsed"
            selection_panel := "collapsed"
            time_panel := "expanded" })) }

/-- The body of the `for s in self.recs` loop of `logger`: issue the logging
calls on stream `s`, then call `update_blueprint`. -/
def loggerBody (episode_name reward actionStr : String) (done truncated : Bool)
    (image : CompressedImage Frame)
    (acc : RenderRerun S Obs Act R Info Opts Frame) (s : SinkId) :
    RenderRerun S Obs Act R Info Opts Frame :=
  let evs := (loggedEvents episode_name reward actionStr done truncated image acc.frame).map
    (TraceEvent.sink s)
  RenderRerun.update_blueprint { acc with events := acc.events ++ evs } episode_name

/-- `logger(output, action)`: compute the episode namespace, the stringified
reward and action and the JPEG-compressed rendered frame, then run the
logging loop over `self.recs`. -/
def RenderRerun.logger [ToString R] [ToString Act]
    (w : RenderRerun S Obs Act R Info Opts Frame)
    (output : StepOutput Obs R Info) (action : Act) :
    RenderRerun S Obs Act R Info Opts Frame :=
  w.recs.foldl
    (loggerBody (episodeName w.episode) (toString output.reward) (toString action)
      output.terminated output.truncated
      { frame := w.env.renderFn w.envState, jpeg_quality := 95 }) w

/-- `step(action)`: delegate to the wrapped environment, log when the
eligibility test passes, increment the frame counter, and return the
delegated output unchanged. -/
def RenderRerun.step [ToString R] [ToString Act]
    (w : RenderRerun S Obs Act R Info Opts Frame) (action : Act) :
    RenderRerun S Obs Act R Info Opts Frame × StepOutput Obs R Info :=
  let p := w.env.stepFn w.envState action
  let w1 := { w with envState := p.1 }
  let w2 := if shouldLog w1.skip_episodes w1.episode then w1.logger p.2 action else w1
  ({ w2 with frame := w2.frame + 1 }, p.2)

/-- `reset(seed, options)`: delegate to the wrapped environment, increment
the episode counter, reset the frame counter, and return the delegated
output unchanged. -/
def RenderRerun.reset (w : RenderRerun S Obs Act R Info Opts Frame)
    (seed : Option Int) (options : Option Opts) :
    RenderRerun S Obs Act R Info Opts Frame × (Obs × Info) :=
  let p := w.env.resetFn w.envState seed options
  ({ w with envState := p.1, episode := w.episode + 1, frame := 0 }, p.2)

/-- The body of the `for s in self.recs` loop of `close`: call
`s.disconnect()` inside `try: ... except Exception: pass`, so the attempt is
made and any failure is swallowed. Whether the disconnect of stream `s`
raises is given by the external oracle `raises`. -/
def closeBody (raises : SinkId → Bool)
    (acc : RenderRerun S Obs Act R Info Opts Frame) (s : SinkId) :
    RenderRerun S Obs Act R Info Opts Frame :=
  let attempted := { acc with events := acc.events ++ [TraceEvent.sink s RerunEvent.disconnect] }
  match (if raises s then Except.error "disconnect raised" else Except.ok () :
      Except String Unit) with
  | Except.ok _ => attempted
  | Except.error _ => attempted

/-- `close()`: attempt to disconnect every recording stream (each failure
caught per-stream), then delegate to the wrapped environment's `close`. -/
def RenderRerun.close (w : RenderRerun S Obs Act R Info Opts Frame)
    (raises : SinkId → Bool) : RenderRerun S Obs Act R Info Opts Frame :=
  let w1 := w.recs.foldl (closeBody raises) w
  { w1 with events := w1.events ++ [TraceEvent.env_close] }

/-- One lifecycle call made by the wrapper's caller. -/
inductive Op (Act Opts : Type) : Type
  | reset (seed : Option Int) (options : Option Opts)
  | step (action : Act)

/-- Whether an operation is a `step` call. -/
def Op.isStep : Op Act Opts → Bool
  | .step _ => true
  | .reset _ _ => false

/-- Apply one lifecycle call to the wrapper, keeping the resulting state. -/
def RenderRerun.applyOp [ToString R] [ToString Act]
    (w : RenderRerun S Obs Act R Info Opts Frame) :
    Op Act Opts → RenderRerun S Obs Act R Info Opts Frame
  | .reset seed options => (w.reset seed options).1
  | .step a => (w.step a).1

/-- Run a sequence of lifecycle calls on the wrapper. -/
def RenderRerun.runOps [ToString R] [ToString Act]
    (w : RenderRerun S Obs Act R Info Opts Frame) :
    List (Op Act Opts) → RenderRerun S Obs Act R Info Opts Frame
  | [] => w
  | op :: rest => (w.applyOp op).runOps rest

/-- The value returned by one lifecycle call. -/
inductive CallOutput (Obs R Info : Type) : Type
  | resetOut (obs : Obs) (info : Info)
  | stepOut (out : StepOutput Obs R Info)

/-- The values the wrapper returns to its caller along a call sequence. -/
def RenderRerun.runOutputs [ToString R] [ToString Act]
    (w : RenderRerun S Obs Act R Info Opts Frame) :
    List (Op Act Opts) → List (CallOutput Obs R Info)
  | [] => []
  | Op.reset seed options :: rest =>
    let p := w.reset seed options
    CallOutput.resetOut p.2.1 p.2.2 :: p.1.runOutputs rest
  | Op.step a :: rest =>
    let p := w.step a
    CallOutput.stepOut p.2 :: p.1.runOutputs rest

/-- The values the bare wrapped environment returns along the same call
sequence. -/
def GymEnv.runOutputs (env : GymEnv S Obs Act R Info Opts Frame) (s : S) :
    List (Op Act Opts) → List (CallOutput Obs R Info)
  | [] => []
  | Op.reset seed options :: rest =>
    let p := env.resetFn s seed options
    CallOutput.resetOut p.2.1 p.2.2 :: env.runOutputs p.1 rest
  | Op.step a :: rest =>
    let p := env.stepFn s a
    CallOutput.stepOut p.2 :: env.runOutputs p.1 rest

/-- Number of reset calls in a call sequence. -/
def countResets (ops : List (Op Act Opts)) : Nat :=
  (ops.filter fun o => !o.isStep).length

/-- Number of step calls after the most recent reset call (all step calls
when the sequence contains no reset). -/
def countTrailingSteps (ops : List (Op Act Opts)) : Nat :=
  (ops.reverse.takeWhile Op.isStep).length

/-- Whether a trace entry is a blueprint send. -/
def isBPSend : TraceEvent Frame → Bool
  | .sink _ (.send_blueprint _) => true
  | _ => false

/-- Number of blueprint sends in a trace. -/
def countBPSends (evs : List (TraceEvent Frame)) : Nat :=
  (evs.filter isBPSend).length

/-- The timeline positions set in a trace: stream, timeline name, sequence. -/
def setTimes (evs : List (TraceEvent Frame)) : List (SinkId × String × Nat) :=
  evs.filterMap fun e =>
    match e with
    | .sink s (.set_time timeline sequence) => some (s, timeline, sequence)
    | _ => none

/-- The data event (everything except blueprint sends) a trace entry carries
for stream `s`, if any. -/
def sinkDataEvent (s : SinkId) : TraceEvent Frame → Option (RerunEvent Frame)
  | .sink s' ev =>
    if s' = s then
      match ev with
      | .send_blueprint _ => none
      | ev => some ev
    else none
  | .env_close => none

/-- The data events a trace carries for stream `s`, in order. -/
def sinkDataEvents (s : SinkId) (evs : List (TraceEvent Frame)) :
    List (RerunEvent Frame) :=
  evs.filterMap (sinkDataEvent s)

/-- Blueprint-send events issued to each stream of `recs` for tab list
`tabs` (the panel states are the fixed ones from `update_blueprint`). -/
def bpSends (recs : List SinkId) (tabs : List Tab) : List (TraceEvent Frame) :=
  recs.map fun s =>
    TraceEvent.sink s (RerunEvent.send_blueprint
      { tabs := tabs
        blueprint_panel := "collapsed"
        selection_panel := "collapsed"
        time_panel := "expanded" })

theorem update_blueprint_mem (w : RenderRerun S Obs Act R Info Opts Frame)
    (n : String) (h : n ∈ w.episode_names) : w.update_blueprint n = w := by
  unfold RenderRerun.update_blueprint
  rw [if_pos h]

theorem update_blueprint_not_mem (w : RenderRerun S Obs Act R Info Opts Frame)
    (n : String) (h : ¬ n ∈ w.episode_names) :
    (w.update_blueprint n).episode_names = n :: w.episode_names ∧
    (w.update_blueprint n).tabs = w.tabs ++ [mkTab n] ∧
    (w.update_blueprint n).events = w.events ++ bpSends w.recs (w.tabs ++ [mkTab n]) := by
  unfold RenderRerun.update_blueprint
  rw [if_neg h]
  exact ⟨rfl, rfl, rfl⟩

theorem ub_env (w : RenderRerun S Obs Act R Info Opts Frame) (n : String) :
    (w.update_blueprint n).env = w.env := by
  unfold RenderRerun.update_blueprint; split <;> rfl

theorem ub_envState (w : RenderRerun S Obs Act R Info Opts Frame) (n : String) :
    (w.update_blueprint n).envState = w.envState := by
  unfold RenderRerun.update_blueprint; split <;> rfl

theorem ub_episode (w : RenderRerun S Obs Act R Info Opts Frame) (n : String) :
    (w.update_blueprint n).episode = w.episode := by
  unfold RenderRerun.update_blueprint; split <;> rfl

theorem ub_frame (w : RenderRerun S Obs Act R Info Opts Frame) (n : String) :
    (w.update_blueprint n).frame = w.frame := by
  unfold RenderRerun.update_blueprint; split <;> rfl

theorem ub_skip (w : RenderRerun S Obs Act R Info Opts Frame) (n : String) :
    (w.update_blueprint n).skip_episodes = w.skip_episodes := by
  unfold RenderRerun.update_blueprint; split <;> rfl

theorem ub_viewer (w : RenderRerun S Obs Act R Info Opts Frame) (n : String) :
    (w.update_blueprint n).viewer = w.viewer := by
  unfold RenderRerun.update_blueprint; split <;> rfl

theorem ub_recs (w : RenderRerun S Obs Act R Info Opts Frame) (n : String) :
    (w.update_blueprint n).recs = w.recs := by
  unfold RenderRerun.update_blueprint; split <;> rfl

theorem ub_events_append (w : RenderRerun S Obs Act R Info Opts Frame) (n : String) :
    ∃ new, (w.update_blueprint n).events = w.events ++ new := by
  unfold RenderRerun.update_blueprint
  split
  · exact ⟨[], (List.append_nil _).symm⟩
  · exact ⟨_, rfl⟩

theorem ub_tabs_append (w : RenderRerun S Obs Act R Info Opts Frame) (n : String) :
    ∃ ts, (w.update_blueprint n).tabs = w.tabs ++ ts := by
  unfold RenderRerun.update_blueprint
  split
  · exact ⟨[], (List.append_nil _).symm⟩
  · exact ⟨_, rfl⟩

theorem foldl_proj {α β γ : Type _} (P : β → γ) (f : β → α → β)
    (hf : ∀ b a, P (f b a) = P b) :
    ∀ (l : List α) (b : β), P (l.foldl f b) = P b := by
  intro l
  induction l with
  | nil => intro b; rfl
  | cons a t ih => intro b; rw [List.foldl_cons, ih, hf]

theorem foldl_pred {α β : Type _} (P : β → Prop) (f : β → α → β)
    (hf : ∀ b a, P b → P (f b a)) :
    ∀ (l : List α) (b : β), P b → P (l.foldl f b) := by
  intro l
  induction l with
  | nil => intro b hb; exact hb
  | cons a t ih => intro b hb; rw [List.foldl_cons]; exact ih _ (hf b a hb)

section LoggerBodyLemmas

variable (episode_name reward actionStr : String) (done truncated : Bool)
variable (image : CompressedImage Frame)
variable (acc : RenderRerun S Obs Act R Info Opts Frame) (s : SinkId)

theorem lb_env :
    (loggerBody episode_name reward actionStr done truncated image acc s).env = acc.env := by
  simp only [loggerBody]
  rw [ub_env]

theorem lb_envState :
    (loggerBody episode_name reward actionStr done truncated image acc s).envState =
      acc.envState := by
  simp only [loggerBody]
  rw [ub_envState]

theorem lb_episode :
    (loggerBody episode_name reward actionStr done truncated image acc s).episode =
      acc.episode := by
  simp only [loggerBody]
  rw [ub_episode]

theorem lb_frame :
    (loggerBody episode_name reward actionStr done truncated image acc s).frame =
      acc.frame := by
  simp only [loggerBody]
  rw [ub_frame]

theorem lb_skip :
    (loggerBody episode_name reward actionStr done truncated image acc s).skip_episodes =
      acc.skip_episodes := by
  simp only [loggerBody]
  rw [ub_skip]

theorem lb_viewer :
    (loggerBody episode_name reward actionStr done truncated image acc s).viewer =
      acc.viewer := by
  simp only [loggerBody]
  rw [ub_viewer]

theorem lb_recs :
    (loggerBody episode_name reward actionStr done truncated image acc s).recs =
      acc.recs := by
  simp only [loggerBody]
  rw [ub_recs]

theorem lb_events_append :
    ∃ new,
      (loggerBody episode_name reward actionStr done truncated image acc s).events =
        acc.events ++ new := by
  simp only [loggerBody]
  obtain ⟨new, hnew⟩ := ub_events_append { acc with events := acc.events ++ (loggedEvents episode_name reward actionStr done truncated image acc.frame).map (TraceEvent.sink s) } episode_name
  exact ⟨_, by rw [hnew, List.append_assoc]⟩

theorem lb_tabs_append :
    ∃ ts,
      (loggerBody episode_name reward actionStr done truncated image acc s).tabs =
        acc.tabs ++ ts := by
  simp only [loggerBody]
  exact ub_tabs_append _ _

end LoggerBodyLemmas

section LoggerLemmas

variable [ToString R] [ToString Act]
variable (w : RenderRerun S Obs Act R Info Opts Frame)
variable (output : StepOutput Obs R Info) (action : Act)

theorem logger_env : (w.logger output action).env = w.env := by
  unfold RenderRerun.logger
  exact foldl_proj _ _ (fun b a => lb_env _ _ _ _ _ _ b a) w.recs w

theorem logger_envState : (w.logger output action).envState = w.envState := by
  unfold RenderRerun.logger
  exact foldl_proj _ _ (fun b a => lb_envState _ _ _ _ _ _ b a) w.recs w

theorem logger_episode : (w.logger output action).episode = w.episode := by
  unfold RenderRerun.logger
  exact foldl_proj _ _ (fun b a => lb_episode _ _ _ _ _ _ b a) w.recs w

theorem logger_frame : (w.logger output action).frame = w.frame := by
  unfold RenderRerun.logger
  exact foldl_proj _ _ (fun b a => lb_frame _ _ _ _ _ _ b a) w.recs w

theorem logger_skip : (w.logger output action).skip_episodes = w.skip_episodes := by
  unfold RenderRerun.logger
  exact foldl_proj _ _ (fun b a => lb_skip _ _ _ _ _ _ b a) w.recs w

theorem logger_viewer : (w.logger output action).viewer = w.viewer := by
  unfold RenderRerun.logger
  exact foldl_proj _ _ (fun b a => lb_viewer _ _ _ _ _ _ b a) w.recs w

theorem logger_recs : (w.logger output action).recs = w.recs := by
  unfold RenderRerun.logger
  exact foldl_proj _ _ (fun b a => lb_recs _ _ _ _ _ _ b a) w.recs w

end LoggerLemmas

section StepResetLemmas

variable [ToString R] [ToString Act]
variable (w : RenderRerun S Obs Act R Info Opts Frame)

theorem step_out (a : Act) : (w.step a).2 = (w.env.stepFn w.envState a).2 := rfl

theorem step_env (a : Act) : (w.step a).1.env = w.env := by
  simp only [RenderRerun.step]
  split
  · rw [logger_env]
  · rfl

theorem step_envState (a : Act) :
    (w.step a).1.envState = (w.env.stepFn w.envState a).1 := by
  simp only [RenderRerun.step]
  split
  · rw [logger_envState]
  · rfl

theorem step_episode (a : Act) : (w.step a).1.episode = w.episode := by
  simp only [RenderRerun.step]
  split
  · rw [logger_episode]
  · rfl

theorem step_frame (a : Act) : (w.step a).1.frame = w.frame + 1 := by
  simp only [RenderRerun.step]
  split
  · rw [logger_frame]
  · rfl

theorem step_skip (a : Act) : (w.step a).1.skip_episodes = w.skip_episodes := by
  simp only [RenderRerun.step]
  split
  · rw [logger_skip]
  · rfl

theorem step_viewer (a : Act) : (w.step a).1.viewer = w.viewer := by
  simp only [RenderRerun.step]
  split
  · rw [logger_viewer]
  · rfl

theorem step_recs (a : Act) : (w.step a).1.recs = w.recs := by
  simp only [RenderRerun.step]
  split
  · rw [logger_recs]
  · rfl

theorem reset_out (seed : Option Int) (options : Option Opts) :
    (w.reset seed options).2 = (w.env.resetFn w.envState seed options).2 := rfl

theorem reset_fields (seed : Option Int) (options : Option Opts) :
    (w.reset seed options).1.env = w.env ∧
    (w.reset seed options).1.envState = (w.env.resetFn w.envState seed options).1 ∧
    (w.reset seed options).1.episode = w.episode + 1 ∧
    (w.reset seed options).1.frame = 0 ∧
    (w.reset seed options).1.skip_episodes = w.skip_episodes ∧
    (w.reset seed options).1.viewer = w.viewer ∧
    (w.reset seed options).1.recs = w.recs ∧
    (w.reset seed options).1.episode_names = w.episode_names ∧
    (w.reset seed options).1.tabs = w.tabs ∧
    (w.reset seed options).1.events = w.events :=
  ⟨rfl, rfl, rfl, rfl, rfl, rfl, rfl, rfl, rfl, rfl⟩

theorem applyOp_env (op : Op Act Opts) : (w.applyOp op).env = w.env := by
  cases op with
  | reset seed options => exact (reset_fields w seed options).1
  | step a => exact step_env w a

theorem applyOp_episode_monotone (op : Op Act Opts) :
    w.episode ≤ (w.applyOp op).episode := by
  cases op with
  | reset seed options =>
    rw [RenderRerun.applyOp, (reset_fields w seed options).2.2.1]
    exact Nat.le_succ _
  | step a =>
    rw [RenderRerun.applyOp, step_episode w a]

theorem applyOp_recs (op : Op Act Opts) : (w.applyOp op).recs = w.recs := by
  cases op with
  | reset seed options => exact (reset_fields w seed options).2.2.2.2.2.2.1
  | step a => exact step_recs w a

theorem applyOp_skip (op : Op Act Opts) :
    (w.applyOp op).skip_episodes = w.skip_episodes := by
  cases op with
  | reset seed options => exact (reset_fields w seed options).2.2.2.2.1
  | step a => exact step_skip w a

end StepResetLemmas

section RunLemmas

variable [ToString R] [ToString Act]

theorem runOps_append (w : RenderRerun S Obs Act R Info Opts Frame)
    (l1 l2 : List (Op Act Opts)) :
    w.runOps (l1 ++ l2) = (w.runOps l1).runOps l2 := by
  induction l1 generalizing w with
  | nil => rfl
  | cons op rest ih =>
    rw [List.cons_append, RenderRerun.runOps, RenderRerun.runOps]
    exact ih _

theorem run_recs (w : RenderRerun S Obs Act R Info Opts Frame)
    (ops : List (Op Act Opts)) : (w.runOps ops).recs = w.recs := by
  induction ops generalizing w with
  | nil => rfl
  | cons op rest ih =>
    rw [RenderRerun.runOps, ih, applyOp_recs]

theorem run_skip (w : RenderRerun S Obs Act R Info Opts Frame)
    (ops : List (Op Act Opts)) : (w.runOps ops).skip_episodes = w.skip_episodes := by
  induction ops generalizing w with
  | nil => rfl
  | cons op rest ih =>
    rw [RenderRerun.runOps, ih, applyOp_skip]

theorem run_episode (w : RenderRerun S Obs Act R Info Opts Frame)
    (ops : List (Op Act Opts)) :
    (w.runOps ops).episode = w.episode + countResets ops := by
  induction ops generalizing w with
  | nil => rw [RenderRerun.runOps]; rfl
  | cons op rest ih =>
    rw [RenderRerun.runOps, ih]
    cases op with
    | reset seed options =>
      rw [RenderRerun.applyOp, (reset_fields w seed options).2.2.1]
      have : countResets (Op.reset seed options :: rest) =
          countResets rest + 1 := by
        simp [countResets, Op.isStep, List.filter_cons]
      omega
    | step a =>
      rw [RenderRerun.applyOp, step_episode]
      have : countResets (Op.step a :: rest) =
          countResets rest := by
        simp [countResets, Op.isStep, List.filter_cons]
      omega

theorem run_frame (w : RenderRerun S Obs Act R Info Opts Frame)
    (ops : List (Op Act Opts)) (h : w.frame = 0) :
    (w.runOps ops).frame = countTrailingSteps ops := by
  induction ops using List.reverseRecOn with
  | nil => rw [RenderRerun.runOps]; simpa [countTrailingSteps]
  | append_singleton l op ih =>
    rw [runOps_append]
    cases op with
    | step a =>
      rw [RenderRerun.runOps, RenderRerun.applyOp, RenderRerun.runOps, step_frame, ih]
      simp [countTrailingSteps, List.takeWhile_cons, Op.isStep]
    | reset seed options =>
      rw [RenderRerun.runOps, RenderRerun.applyOp, RenderRerun.runOps,
        (reset_fields _ seed options).2.2.2.1]
      simp [countTrailingSteps, List.takeWhile_cons, Op.isStep]

end RunLemmas

section TracePrimitives

theorem setTimes_append (l1 l2 : List (TraceEvent Frame)) :
    setTimes (l1 ++ l2) = setTimes l1 ++ setTimes l2 :=
  List.filterMap_append l1 l2 _

theorem setTimes_bpSends (recs : List SinkId) (tabs : List Tab) :
    setTimes (bpSends recs tabs : List (TraceEvent Frame)) = [] := by
  simp [bpSends, setTimes, List.filterMap_map, Function.comp]

theorem setTimes_logged (s : SinkId) (n r a : String) (d t : Bool)
    (img : CompressedImage Frame) (fr : Nat) :
    setTimes ((loggedEvents n r a d t img fr).map (TraceEvent.sink s)) =
      [(s, "frame", fr)] := by
  cases d <;> cases t <;> rfl

theorem sinkDataEvents_append (q : SinkId) (l1 l2 : List (TraceEvent Frame)) :
    sinkDataEvents q (l1 ++ l2) = sinkDataEvents q l1 ++ sinkDataEvents q l2 :=
  List.filterMap_append l1 l2 _

theorem sinkDataEvents_bpSends (q : SinkId) (recs : List SinkId) (tabs : List Tab) :
    sinkDataEvents q (bpSends recs tabs : List (TraceEvent Frame)) = [] := by
  simp only [bpSends, sinkDataEvents, List.filterMap_map]
  have : ∀ s : SinkId,
      sinkDataEvent q (TraceEvent.sink s (RerunEvent.send_blueprint
        { tabs := tabs, blueprint_panel := "collapsed", selection_panel := "collapsed",
          time_panel := "expanded" }) : TraceEvent Frame) = none := by
    intro s
    simp only [sinkDataEvent]
    split <;> rfl
  simp [Function.comp, this]

theorem sinkDataEvents_map_self (q : SinkId) (n r a : String) (d t : Bool)
    (img : CompressedImage Frame) (fr : Nat) :
    sinkDataEvents q ((loggedEvents n r a d t img fr).map (TraceEvent.sink q)) =
      loggedEvents n r a d t img fr := by
  cases q <;> cases d <;> cases t <;> rfl

theorem sinkDataEvents_map_other (q s : SinkId) (h : ¬ s = q) (n r a : String)
    (d t : Bool) (img : CompressedImage Frame) (fr : Nat) :
    sinkDataEvents q ((loggedEvents n r a d t img fr).map (TraceEvent.sink s)) = [] := by
  cases q <;> cases s <;> first
  | exact absurd rfl h
  | cases d <;> cases t <;> rfl

theorem countBPSends_append (l1 l2 : List (TraceEvent Frame)) :
    countBPSends (l1 ++ l2) = countBPSends l1 + countBPSends l2 := by
  simp [countBPSends, List.filter_append]

theorem countBPSends_bpSends (recs : List SinkId) (tabs : List Tab) :
    countBPSends (bpSends recs tabs : List (TraceEvent Frame)) = recs.length := by
  induction recs with
  | nil => rfl
  | cons s t ih =>
    simpa [bpSends, countBPSends, isBPSend, List.filter_cons] using ih

theorem countBPSends_logged (s : SinkId) (n r a : String) (d t : Bool)
    (img : CompressedImage Frame) (fr : Nat) :
    countBPSends ((loggedEvents n r a d t img fr).map (TraceEvent.sink s)) = 0 := by
  cases d <;> cases t <;> rfl

theorem loggedEvents_length_pos (n r a : String) (d t : Bool)
    (img : CompressedImage Frame) (fr : Nat) :
    0 < (loggedEvents n r a d t img fr).length := by
  cases d <;> cases t <;> simp [loggedEvents]

end TracePrimitives

section LoggerFold

variable (episode_name reward actionStr : String) (done truncated : Bool)
variable (image : CompressedImage Frame)

theorem ub_events_cases (w : RenderRerun S Obs Act R Info Opts Frame) (n : String) :
    (w.update_blueprint n).events = w.events ∨
    (w.update_blueprint n).events = w.events ++ bpSends w.recs (w.tabs ++ [mkTab n]) := by
  unfold RenderRerun.update_blueprint
  split
  · exact Or.inl rfl
  · exact Or.inr rfl

theorem lb_setTimes (acc : RenderRerun S Obs Act R Info Opts Frame) (s : SinkId) :
    ∃ new,
      (loggerBody episode_name reward actionStr done truncated image acc s).events =
        acc.events ++ new ∧
      setTimes new = [(s, "frame", acc.frame)] := by
  simp only [loggerBody]
  rcases ub_events_cases { acc with events := acc.events ++ (loggedEvents episode_name reward actionStr done truncated image acc.frame).map (TraceEvent.sink s) } episode_name with h | h
  · exact ⟨_, h, setTimes_logged s _ _ _ _ _ _ _⟩
  · refine ⟨(loggedEvents episode_name reward actionStr done truncated image acc.frame).map (TraceEvent.sink s) ++ bpSends acc.recs (acc.tabs ++ [mkTab episode_name]), ?_, ?_⟩
    · rw [h, List.append_assoc]
    · rw [setTimes_append, setTimes_logged, setTimes_bpSends, List.append_nil]

theorem foldl_setTimes :
    ∀ (l : List SinkId) (acc : RenderRerun S Obs Act R Info Opts Frame),
      ∃ new,
        (l.foldl (loggerBody episode_name reward actionStr done truncated image) acc).events =
          acc.events ++ new ∧
        setTimes new = l.map fun s => (s, "frame", acc.frame) := by
  intro l
  induction l with
  | nil =>
    intro acc
    exact ⟨[], (List.append_nil _).symm, rfl⟩
  | cons s t ih =>
    intro acc
    obtain ⟨new1, h1, h1t⟩ :=
      lb_setTimes episode_name reward actionStr done truncated image acc s
    obtain ⟨new2, h2, h2t⟩ :=
      ih (loggerBody episode_name reward actionStr done truncated image acc s)
    refine ⟨new1 ++ new2, ?_, ?_⟩
    · rw [List.foldl_cons, h2, h1, List.append_assoc]
    · rw [setTimes_append, h1t, h2t, lb_frame]
      rfl

theorem logger_setTimes [ToString R] [ToString Act]
    (w : RenderRerun S Obs Act R Info Opts Frame)
    (output : StepOutput Obs R Info) (action : Act) :
    ∃ new, (w.logger output action).events = w.events ++ new ∧
      setTimes new = w.recs.map fun s => (s, "frame", w.frame) := by
  unfold RenderRerun.logger
  exact foldl_setTimes _ _ _ _ _ _ w.recs w

theorem lb_sinkData (q : SinkId) (acc : RenderRerun S Obs Act R Info Opts Frame)
    (s : SinkId) :
    ∃ new,
      (loggerBody episode_name reward actionStr done truncated image acc s).events =
        acc.events ++ new ∧
      sinkDataEvents q new =
        (if s = q then
          loggedEvents episode_name reward actionStr done truncated image acc.frame
        else []) := by
  simp only [loggerBody]
  rcases ub_events_cases { acc with events := acc.events ++ (loggedEvents episode_name reward actionStr done truncated image acc.frame).map (TraceEvent.sink s) } episode_name with h | h
  · refine ⟨_, h, ?_⟩
    by_cases hq : s = q
    · subst hq
      rw [if_pos rfl]
      exact sinkDataEvents_map_self s _ _ _ _ _ _ _
    · rw [if_neg hq]
      exact sinkDataEvents_map_other q s hq _ _ _ _ _ _ _
  · refine ⟨(loggedEvents episode_name reward actionStr done truncated image acc.frame).map (TraceEvent.sink s) ++ bpSends acc.recs (acc.tabs ++ [mkTab episode_name]), ?_, ?_⟩
    · rw [h, List.append_assoc]
    · rw [sinkDataEvents_append, sinkDataEvents_bpSends, List.append_nil]
      by_cases hq : s = q
      · subst hq
        rw [if_pos rfl]
        exact sinkDataEvents_map_self s _ _ _ _ _ _ _
      · rw [if_neg hq]
        exact sinkDataEvents_map_other q s hq _ _ _ _ _ _ _

theorem foldl_sinkData (q : SinkId) (fr : Nat) :
    ∀ (l : List SinkId) (acc : RenderRerun S Obs Act R Info Opts Frame),
      l.Nodup → acc.frame = fr →
      (q ∈ l →
        sinkDataEvents q
            ((l.foldl (loggerBody episode_name reward actionStr done truncated image) acc).events) =
          sinkDataEvents q acc.events ++
            loggedEvents episode_name reward actionStr done truncated image fr) ∧
      (¬ q ∈ l →
        sinkDataEvents q
            ((l.foldl (loggerBody episode_name reward actionStr done truncated image) acc).events) =
          sinkDataEvents q acc.events) := by
  intro l
  induction l with
  | nil =>
    intro acc _ _
    exact ⟨fun hq => absurd hq (List.not_mem_nil q), fun _ => rfl⟩
  | cons s t ih =>
    intro acc hnd hfr
    obtain ⟨new1, h1, h1q⟩ :=
      lb_sinkData episode_name reward actionStr done truncated image q acc s
    have hfr' : (loggerBody episode_name reward actionStr done truncated image acc s).frame = fr := by
      rw [lb_frame, hfr]
    have hnd' : t.Nodup := (List.nodup_cons.mp hnd).2
    have hsnott : ¬ s ∈ t := (List.nodup_cons.mp hnd).1
    obtain ⟨iht_mem, iht_not⟩ :=
      ih (loggerBody episode_name reward actionStr done truncated image acc s) hnd' hfr'
    constructor
    · intro hq
      rcases List.mem_cons.mp hq with rfl | hq
      · rw [List.foldl_cons, iht_not hsnott, h1, sinkDataEvents_append, h1q,
          if_pos rfl, hfr]
      · have hqs : ¬ s = q := fun e => hsnott (e ▸ hq)
        rw [List.foldl_cons, iht_mem hq, h1, sinkDataEvents_append, h1q, if_neg hqs,
          List.append_nil]
    · intro hq
      have hqs : ¬ s = q := fun e => hq (List.mem_cons.mpr (Or.inl e.symm))
      have hqt : ¬ q ∈ t := fun e => hq (List.mem_cons.mpr (Or.inr e))
      rw [List.foldl_cons, iht_not hqt, h1, sinkDataEvents_append, h1q, if_neg hqs,
        List.append_nil]

theorem logger_sinkData [ToString R] [ToString Act]
    (w : RenderRerun S Obs Act R Info Opts Frame)
    (output : StepOutput Obs R Info) (action : Act) (q : SinkId)
    (hq : q ∈ w.recs) (hnd : w.recs.Nodup) :
    sinkDataEvents q (w.logger output action).events =
      sinkDataEvents q w.events ++
        loggedEvents (episodeName w.episode) (toString output.reward) (toString action)
          output.terminated output.truncated
          { frame := w.env.renderFn w.envState, jpeg_quality := 95 } w.frame := by
  unfold RenderRerun.logger
  exact (foldl_sinkData _ _ _ _ _ _ q w.frame w.recs w hnd rfl).1 hq

end LoggerFold

section BlueprintCounting

variable (episode_name reward actionStr : String) (done truncated : Bool)
variable (image : CompressedImage Frame)

theorem ub_countBP (w : RenderRerun S Obs Act R Info Opts Frame) (n : String) :
    countBPSends (w.update_blueprint n).events =
      countBPSends w.events +
        ((w.update_blueprint n).tabs.length - w.tabs.length) * w.recs.length ∧
    w.tabs.length ≤ (w.update_blueprint n).tabs.length := by
  by_cases hm : n ∈ w.episode_names
  · rw [update_blueprint_mem w n hm]
    exact ⟨by simp, Nat.le_refl _⟩
  · obtain ⟨_, ht, he⟩ := update_blueprint_not_mem w n hm
    constructor
    · rw [he, countBPSends_append, countBPSends_bpSends, ht]
      simp
    · rw [ht]
      simp

theorem lb_countBP (acc : RenderRerun S Obs Act R Info Opts Frame) (s : SinkId) :
    countBPSends (loggerBody episode_name reward actionStr done truncated image acc s).events =
      countBPSends acc.events +
        ((loggerBody episode_name reward actionStr done truncated image acc s).tabs.length -
          acc.tabs.length) * acc.recs.length ∧
    acc.tabs.length ≤
      (loggerBody episode_name reward actionStr done truncated image acc s).tabs.length := by
  simp only [loggerBody]
  obtain ⟨h1, h2⟩ := ub_countBP { acc with events := acc.events ++ (loggedEvents episode_name reward actionStr done truncated image acc.frame).map (TraceEvent.sink s) } episode_name
  constructor
  · rw [h1, countBPSends_append, countBPSends_logged]
    simp
  · exact h2

theorem foldl_countBP :
    ∀ (l : List SinkId) (acc : RenderRerun S Obs Act R Info Opts Frame),
      countBPSends
          ((l.foldl (loggerBody episode_name reward actionStr done truncated image) acc).events) =
        countBPSends acc.events +
          ((l.foldl (loggerBody episode_name reward actionStr done truncated image) acc).tabs.length -
            acc.tabs.length) * acc.recs.length ∧
      acc.tabs.length ≤
        (l.foldl (loggerBody episode_name reward actionStr done truncated image) acc).tabs.length := by
  intro l
  induction l with
  | nil =>
    intro acc
    exact ⟨by simp, Nat.le_refl _⟩
  | cons s t ih =>
    intro acc
    obtain ⟨h1, h1le⟩ := lb_countBP episode_name reward actionStr done truncated image acc s
    obtain ⟨h2, h2le⟩ :=
      ih (loggerBody episode_name reward actionStr done truncated image acc s)
    have hrecs : (loggerBody episode_name reward actionStr done truncated image acc s).recs =
        acc.recs := lb_recs _ _ _ _ _ _ _ _
    rw [List.foldl_cons]
    constructor
    · rw [h2, hrecs, h1]
      have e3 :
          ((loggerBody episode_name reward actionStr done truncated image acc s).tabs.length -
              acc.tabs.length) +
            ((t.foldl (loggerBody episode_name reward actionStr done truncated image)
                  (loggerBody episode_name reward actionStr done truncated image acc s)).tabs.length -
              (loggerBody episode_name reward actionStr done truncated image acc s).tabs.length) =
          (t.foldl (loggerBody episode_name reward actionStr done truncated image)
              (loggerBody episode_name reward actionStr done truncated image acc s)).tabs.length -
            acc.tabs.length := by
        omega
      rw [Nat.add_assoc, ← Nat.add_mul, e3]
    · exact Nat.le_trans h1le h2le

theorem logger_countBP [ToString R] [ToString Act]
    (w : RenderRerun S Obs Act R Info Opts Frame)
    (output : StepOutput Obs R Info) (action : Act) :
    countBPSends (w.logger output action).events =
      countBPSends w.events +
        ((w.logger output action).tabs.length - w.tabs.length) * w.recs.length ∧
    w.tabs.length ≤ (w.logger output action).tabs.length := by
  unfold RenderRerun.logger
  exact foldl_countBP _ _ _ _ _ _ w.recs w

theorem step_countBP [ToString R] [ToString Act]
    (w : RenderRerun S Obs Act R Info Opts Frame) (a : Act) :
    countBPSends (w.step a).1.events =
      countBPSends w.events + ((w.step a).1.tabs.length - w.tabs.length) * w.recs.length := by
  simp only [RenderRerun.step]
  split
  · exact (logger_countBP _ _ _).1
  · simp

end BlueprintCounting

section TabsLemmas

variable (episode_name reward actionStr : String) (done truncated : Bool)
variable (image : CompressedImage Frame)

theorem foldl_tabs_append :
    ∀ (l : List SinkId) (acc : RenderRerun S Obs Act R Info Opts Frame),
      ∃ ts, (l.foldl (loggerBody episode_name reward actionStr done truncated image) acc).tabs =
        acc.tabs ++ ts := by
  intro l
  induction l with
  | nil =>
    intro acc
    exact ⟨[], (List.append_nil _).symm⟩
  | cons s t ih =>
    intro acc
    obtain ⟨ts1, h1⟩ := lb_tabs_append episode_name reward actionStr done truncated image acc s
    obtain ⟨ts2, h2⟩ := ih (loggerBody episode_name reward actionStr done truncated image acc s)
    exact ⟨ts1 ++ ts2, by rw [List.foldl_cons, h2, h1, List.append_assoc]⟩

theorem logger_tabs_append [ToString R] [ToString Act]
    (w : RenderRerun S Obs Act R Info Opts Frame)
    (output : StepOutput Obs R Info) (action : Act) :
    ∃ ts, (w.logger output action).tabs = w.tabs ++ ts := by
  unfold RenderRerun.logger
  exact foldl_tabs_append _ _ _ _ _ _ w.recs w

theorem step_tabs_append [ToString R] [ToString Act]
    (w : RenderRerun S Obs Act R Info Opts Frame) (a : Act) :
    ∃ ts, (w.step a).1.tabs = w.tabs ++ ts := by
  simp only [RenderRerun.step]
  split
  · exact logger_tabs_append _ _ _
  · exact ⟨[], (List.append_nil _).symm⟩

theorem applyOp_tabs_append [ToString R] [ToString Act]
    (w : RenderRerun S Obs Act R Info Opts Frame) (op : Op Act Opts) :
    ∃ ts, (w.applyOp op).tabs = w.tabs ++ ts := by
  cases op with
  | reset seed options => exact ⟨[], (List.append_nil _).symm⟩
  | step a => exact step_tabs_append w a

theorem lb_pres_mem_tabs (acc : RenderRerun S Obs Act R Info Opts Frame) (s : SinkId)
    (T : List Tab)
    (h : episode_name ∈ acc.episode_names ∧ acc.tabs = T) :
    episode_name ∈
        (loggerBody episode_name reward actionStr done truncated image acc s).episode_names ∧
      (loggerBody episode_name reward actionStr done truncated image acc s).tabs = T := by
  simp only [loggerBody]
  rw [update_blueprint_mem]
  · exact h
  · exact h.1

theorem logger_tabs_stable [ToString R] [ToString Act]
    (w : RenderRerun S Obs Act R Info Opts Frame)
    (output : StepOutput Obs R Info) (action : Act)
    (h : episodeName w.episode ∈ w.episode_names) :
    (w.logger output action).tabs = w.tabs := by
  unfold RenderRerun.logger
  exact (foldl_pred
    (fun x : RenderRerun S Obs Act R Info Opts Frame =>
      episodeName w.episode ∈ x.episode_names ∧ x.tabs = w.tabs)
    _
    (fun b a hb => lb_pres_mem_tabs _ _ _ _ _ _ b a w.tabs hb)
    w.recs w ⟨h, rfl⟩).2

theorem step_tabs_stable [ToString R] [ToString Act]
    (w : RenderRerun S Obs Act R Info Opts Frame) (a : Act)
    (h : episodeName w.episode ∈ w.episode_names) :
    (w.step a).1.tabs = w.tabs := by
  simp only [RenderRerun.step]
  split
  · exact logger_tabs_stable _ _ _ h
  · rfl

end TabsLemmas

section NamesInv

/-- The bookkeeping invariant tying `self.episode_names` (the seen-set) to
`self.tabs`: the seen-set holds exactly the tab names (most recent first)
and the tab names are pairwise distinct. -/
def namesInv (w : RenderRerun S Obs Act R Info Opts Frame) : Prop :=
  w.episode_names = (w.tabs.map Tab.name).reverse ∧ (w.tabs.map Tab.name).Nodup

theorem ub_namesInv (w : RenderRerun S Obs Act R Info Opts Frame) (n : String)
    (h : namesInv w) : namesInv (w.update_blueprint n) := by
  by_cases hm : n ∈ w.episode_names
  · rw [update_blueprint_mem w n hm]
    exact h
  · obtain ⟨hn, ht, _⟩ := update_blueprint_not_mem w n hm
    obtain ⟨h1, h2⟩ := h
    have hnotmap : ¬ n ∈ w.tabs.map Tab.name := by
      intro hc
      exact hm (by rw [h1]; exact List.mem_reverse.mpr hc)
    constructor
    · rw [hn, ht, List.map_append, List.reverse_append, h1]
      rfl
    · rw [ht, List.map_append]
      simp [List.nodup_append, h2, hnotmap, mkTab]

theorem lb_namesInv (episode_name reward actionStr : String) (done truncated : Bool)
    (image : CompressedImage Frame)
    (acc : RenderRerun S Obs Act R Info Opts Frame) (s : SinkId)
    (h : namesInv acc) :
    namesInv (loggerBody episode_name reward actionStr done truncated image acc s) := by
  simp only [loggerBody]
  exact ub_namesInv _ _ h

theorem logger_namesInv [ToString R] [ToString Act]
    (w : RenderRerun S Obs Act R Info Opts Frame)
    (output : StepOutput Obs R Info) (action : Act)
    (h : namesInv w) : namesInv (w.logger output action) := by
  unfold RenderRerun.logger
  exact foldl_pred namesInv _ (fun b a hb => lb_namesInv _ _ _ _ _ _ b a hb) w.recs w h

theorem step_namesInv [ToString R] [ToString Act]
    (w : RenderRerun S Obs Act R Info Opts Frame) (a : Act)
    (h : namesInv w) : namesInv (w.step a).1 := by
  simp only [RenderRerun.step]
  split
  · exact logger_namesInv _ _ _ h
  · exact h

theorem applyOp_namesInv [ToString R] [ToString Act]
    (w : RenderRerun S Obs Act R Info Opts Frame) (op : Op Act Opts)
    (h : namesInv w) : namesInv (w.applyOp op) := by
  cases op with
  | reset seed options => exact h
  | step a => exact step_namesInv w a h

theorem run_namesInv [ToString R] [ToString Act]
    (w : RenderRerun S Obs Act R Info Opts Frame) (ops : List (Op Act Opts))
    (h : namesInv w) : namesInv (w.runOps ops) := by
  induction ops generalizing w with
  | nil => exact h
  | cons op rest ih =>
    rw [RenderRerun.runOps]
    exact ih _ (applyOp_namesInv w op h)

end NamesInv

section EventsGrowth

variable (episode_name reward actionStr : String) (done truncated : Bool)
variable (image : CompressedImage Frame)

theorem lb_events_length (acc : RenderRerun S Obs Act R Info Opts Frame) (s : SinkId) :
    acc.events.length + 1 ≤
      (loggerBody episode_name reward actionStr done truncated image acc s).events.length := by
  obtain ⟨new, h, ht⟩ := lb_setTimes episode_name reward actionStr done truncated image acc s
  rw [h, List.length_append]
  have hnew : 0 < new.length := by
    rcases new with _ | ⟨e, rest⟩
    · simp [setTimes] at ht
    · simp
  omega

theorem foldl_events_length :
    ∀ (l : List SinkId) (acc : RenderRerun S Obs Act R Info Opts Frame),
      acc.events.length ≤
        (l.foldl (loggerBody episode_name reward actionStr done truncated image) acc).events.length := by
  intro l
  induction l with
  | nil => intro acc; exact Nat.le_refl _
  | cons s t ih =>
    intro acc
    have h1 := lb_events_length episode_name reward actionStr done truncated image acc s
    have h2 := ih (loggerBody episode_name reward actionStr done truncated image acc s)
    rw [List.foldl_cons]
    omega

theorem logger_events_longer [ToString R] [ToString Act]
    (w : RenderRerun S Obs Act R Info Opts Frame)
    (output : StepOutput Obs R Info) (action : Act) (h : w.recs ≠ []) :
    w.events.length < (w.logger output action).events.length := by
  unfold RenderRerun.logger
  obtain ⟨s, t, hst⟩ := List.exists_cons_of_ne_nil h
  rw [hst, List.foldl_cons]
  have h1 := lb_events_length (episodeName w.episode) (toString output.reward)
    (toString action) output.terminated output.truncated
    { frame := w.env.renderFn w.envState, jpeg_quality := 95 } w s
  have h2 := foldl_events_length (episodeName w.episode) (toString output.reward)
    (toString action) output.terminated output.truncated
    { frame := w.env.renderFn w.envState, jpeg_quality := 95 } t
    (loggerBody (episodeName w.episode) (toString output.reward) (toString action)
      output.terminated output.truncated
      { frame := w.env.renderFn w.envState, jpeg_quality := 95 } w s)
  omega

theorem step_events_unchanged [ToString R] [ToString Act]
    (w : RenderRerun S Obs Act R Info Opts Frame) (a : Act)
    (h : ¬ shouldLog w.skip_episodes w.episode = true) :
    (w.step a).1.events = w.events := by
  simp only [RenderRerun.step]
  rw [if_neg h]

theorem step_events_of_log [ToString R] [ToString Act]
    (w : RenderRerun S Obs Act R Info Opts Frame) (a : Act)
    (h : shouldLog w.skip_episodes w.episode = true) :
    (w.step a).1.events =
      (RenderRerun.logger { w with envState := (w.env.stepFn w.envState a).1 }
        (w.env.stepFn w.envState a).2 a).events := by
  simp only [RenderRerun.step]
  rw [if_pos h]

end EventsGrowth

section InitLemmas

theorem init_ok_fields (env : GymEnv S Obs Act R Info Opts Frame) (s0 : S)
    (filename : Option String) (sk : Nat) (v : Viewer)
    (w : RenderRerun S Obs Act R Info Opts Frame)
    (h : RenderRerun.init env s0 filename sk v = Except.ok w) :
    w.env = env ∧ w.envState = s0 ∧ w.episode = 0 ∧ w.frame = 0 ∧
    w.skip_episodes = sk ∧ w.viewer = v ∧
    w.recs = (if filenameTruthy filename then [SinkId.fileSink] else []) ++
      [SinkId.viewerSink] ∧
    w.episode_names = [] ∧ w.tabs = [] := by
  unfold RenderRerun.init at h
  split at h
  · exact absurd h (by simp)
  · split at h
    · exact absurd h (by simp)
    · injection h with h
      subst h
      exact ⟨rfl, rfl, rfl, rfl, rfl, rfl, rfl, rfl, rfl⟩

end InitLemmas

section PassThrough

theorem runOutputs_eq [ToString R] [ToString Act]
    (w : RenderRerun S Obs Act R Info Opts Frame) (ops : List (Op Act Opts)) :
    w.runOutputs ops = w.env.runOutputs w.envState ops := by
  induction ops generalizing w with
  | nil => rfl
  | cons op rest ih =>
    cases op with
    | reset seed options =>
      rw [RenderRerun.runOutputs, GymEnv.runOutputs, ih]
      rfl
    | step a =>
      rw [RenderRerun.runOutputs, GymEnv.runOutputs, ih, step_env, step_envState]
      rfl

end PassThrough

section CloseLemmas

theorem closeBody_events (raises : SinkId → Bool)
    (acc : RenderRerun S Obs Act R Info Opts Frame) (s : SinkId) :
    (closeBody raises acc s).events =
      acc.events ++ [TraceEvent.sink s RerunEvent.disconnect] := by
  unfold closeBody
  split <;> rfl

theorem foldl_close_events (raises : SinkId → Bool) :
    ∀ (l : List SinkId) (acc : RenderRerun S Obs Act R Info Opts Frame),
      (l.foldl (closeBody raises) acc).events =
        acc.events ++ l.map fun s => TraceEvent.sink s RerunEvent.disconnect := by
  intro l
  induction l with
  | nil => intro acc; exact (List.append_nil _).symm
  | cons s t ih =>
    intro acc
    rw [List.foldl_cons, ih, closeBody_events, List.append_assoc]
    rfl

theorem close_events (w : RenderRerun S Obs Act R Info Opts Frame)
    (raises : SinkId → Bool) :
    (w.close raises).events =
      w.events ++ (w.recs.map fun s => TraceEvent.sink s RerunEvent.disconnect) ++
        [TraceEvent.env_close] := by
  simp only [RenderRerun.close]
  rw [foldl_close_events]

theorem closeBody_eq (raises raises' : SinkId → Bool)
    (acc : RenderRerun S Obs Act R Info Opts Frame) (s : SinkId) :
    closeBody raises acc s = closeBody raises' acc s := by
  unfold closeBody
  split <;> split <;> rfl

theorem foldl_close_eq (raises raises' : SinkId → Bool) :
    ∀ (l : List SinkId) (acc : RenderRerun S Obs Act R Info Opts Frame),
      l.foldl (closeBody raises) acc = l.foldl (closeBody raises') acc := by
  intro l
  induction l with
  | nil => intro acc; rfl
  | cons s t ih =>
    intro acc
    rw [List.foldl_cons, List.foldl_cons, closeBody_eq raises raises', ih]

theorem close_raises_independent (w : RenderRerun S Obs Act R Info Opts Frame)
    (raises raises' : SinkId → Bool) : w.close raises = w.close raises' := by
  simp only [RenderRerun.close]
  rw [foldl_close_eq raises raises']

end CloseLemmas

section ShouldLogLemmas

theorem shouldLog_iff (skip episode : Nat) :
    shouldLog skip episode = true ↔ (skip = 0 ∨ skip = 1 ∨ episode % skip = 1) := by
  simp [shouldLog, or_assoc]

theorem shouldLog_100 (e : Nat) : shouldLog 100 e = true ↔ ∃ j, e = 100 * j + 1 := by
  rw [shouldLog_iff]
  constructor
  · rintro (h | h | h)
    · omega
    · omega
    · exact ⟨e / 100, by omega⟩
  · rintro ⟨j, rfl⟩
    right; right
    omega

theorem shouldLog_4 (e : Nat) : shouldLog 4 e = true ↔ ∃ j, e = 4 * j + 1 := by
  rw [shouldLog_iff]
  constructor
  · rintro (h | h | h)
    · omega
    · omega
    · exact ⟨e / 4, by omega⟩
  · rintro ⟨j, rfl⟩
    right; right
    omega

theorem shouldLog_0 (e : Nat) : shouldLog 0 e = true := rfl

theorem shouldLog_1 (e : Nat) : shouldLog 1 e = true := rfl

theorem shouldLog_gt1_zero (n : Nat) (h : 1 < n) : shouldLog n 0 = false := by
  simp [shouldLog, Nat.zero_mod]
  omega

theorem step_logged_iff [ToString R] [ToString Act]
    (w : RenderRerun S Obs Act R Info Opts Frame) (a : Act) (h : w.recs ≠ []) :
    ((w.step a).1.events.length ≠ w.events.length) ↔
      shouldLog w.skip_episodes w.episode = true := by
  by_cases hsl : shouldLog w.skip_episodes w.episode = true
  · rw [step_events_of_log w a hsl]
    have hlen := logger_events_longer
      { w with envState := (w.env.stepFn w.envState a).1 }
      (w.env.stepFn w.envState a).2 a h
    exact iff_of_true (ne_of_gt hlen) hsl
  · rw [step_events_unchanged w a hsl]
    exact iff_of_false (by simp) hsl

end ShouldLogLemmas

/-- Whether a trace entry is the delegated `env.close()` call. -/
def isEnvClose : TraceEvent Frame → Bool
  | .env_close => true
  | _ => false

/-- A concrete wrapped environment (deterministic toy dynamics, render mode
"rgb_array") used to instantiate theorems at concrete inputs. -/
def E0 : GymEnv Nat Nat Nat Nat Unit Unit Unit :=
  { render_mode := some "rgb_array"
    stepFn := fun s a => (s + a + 1,
      { obs := s, reward := s + a, terminated := false, truncated := false, info := () })
    resetFn := fun _ _ _ => (0, (0, ()))
    renderFn := fun _ => () }

/-- The concrete environment with no render mode declared. -/
def ENone : GymEnv Nat Nat Nat Nat Unit Unit Unit := { E0 with render_mode := none }

/-- The concrete environment with a list-variant render mode. -/
def EList : GymEnv Nat Nat Nat Nat Unit Unit Unit :=
  { E0 with render_mode := some "rgb_array_list" }

/-- The wrapper state `RenderRerun.init E0 0 none 0 Viewer.off` constructs. -/
def wExample : RenderRerun Nat Nat Nat Nat Unit Unit Unit :=
  { env := E0, envState := 0, episode := 0, frame := 0, skip_episodes := 0,
    viewer := Viewer.off, recs := [SinkId.viewerSink], episode_names := [],
    tabs := [], events := [] }

/-- A concrete step output with the terminated flag raised. -/
def outExample : StepOutput Nat Nat Unit :=
  { obs := 0, reward := 5, terminated := true, truncated := false, info := () }

/-- A concrete call sequence: two episodes, two steps then one step. -/
def opsA : List (Op Nat Unit) :=
  [Op.reset none none, Op.step 7, Op.step 7, Op.reset none none, Op.step 7]

/-- A concrete call sequence: one reset followed by one step. -/
def opsB : List (Op Nat Unit) := [Op.reset none none, Op.step 5]

/-- C1 counterexample: constructing the wrapper on a valid environment with
both a non-empty output file path ("example.rrd") and the truthy viewer mode
"script" completes successfully and creates both recording streams,
contradicting the claim that such a construction must fail with no recording
stream created. -/
theorem C1_counterexample :
    ∃ w, RenderRerun.init E0 0 (some "example.rrd") 100 Viewer.script = Except.ok w ∧
      w.recs = [SinkId.fileSink, SinkId.viewerSink] :=
  ⟨_, rfl, rfl⟩

/-- C1 (amended): constructing the wrapper with both a non-empty output file
path and a truthy viewer mode does NOT fail: whenever the render-mode
preconditions hold, construction completes (no configuration error about the
filename/viewer combination is raised) and both a file-backed and a
viewer-backed recording stream are created. -/
theorem C1_amended (env : GymEnv S Obs Act R Info Opts Frame) (s0 : S)
    (filename : Option String) (sk : Nat) (v : Viewer) (m : String)
    (h1 : env.render_mode = some m) (h2 : strEndsWith m "_list" = false)
    (h3 : filenameTruthy filename = true) (h4 : v.truthy = true) :
    ∃ w, RenderRerun.init env s0 filename sk v = Except.ok w ∧
      w.recs = [SinkId.fileSink, SinkId.viewerSink] := by
  simp only [RenderRerun.init, h1, h2, h3, h4, Bool.false_eq_true, if_false, if_true]
  exact ⟨_, rfl, rfl⟩

/-- C1 amended witness at a concrete input: filename "other.rrd", viewer
mode "notebook". -/
theorem C1_amended_witness :
    ∃ w, RenderRerun.init E0 0 (some "other.rrd") 3 Viewer.notebook = Except.ok w ∧
      w.recs = [SinkId.fileSink, SinkId.viewerSink] :=
  C1_amended E0 0 (some "other.rrd") 3 Viewer.notebook "rgb_array" rfl (by decide)
    (by decide) (by decide)

/-- C2 counterexample: with no filename and viewer mode `False` (no viewer
requested), the sink list of the constructed wrapper nevertheless contains
the viewer-backed recording stream, contradicting the claim that a
viewer-backed stream is present only when a viewer is requested. -/
theorem C2_counterexample :
    ∃ w, RenderRerun.init E0 0 none 100 Viewer.off = Except.ok w ∧
      Viewer.off.truthy = false ∧ SinkId.viewerSink ∈ w.recs :=
  ⟨_, rfl, rfl, by decide⟩

/-- C2 (amended): the sink list created at construction holds one or two
recording streams and is determined entirely by the configuration: the
viewer-backed stream is always present (regardless of the viewer mode), and
the file-backed stream is present exactly when a non-empty filename is
given; the list is never modified afterwards by step, reset, render, the
logging routine, or the layout update. -/
theorem C2_amended [ToString R] [ToString Act]
    (env : GymEnv S Obs Act R Info Opts Frame) (s0 : S) (filename : Option String)
    (sk : Nat) (v : Viewer) (w : RenderRerun S Obs Act R Info Opts Frame)
    (h : RenderRerun.init env s0 filename sk v = Except.ok w) :
    w.recs = (if filenameTruthy filename then [SinkId.fileSink] else []) ++
      [SinkId.viewerSink] ∧
    1 ≤ w.recs.length ∧ w.recs.length ≤ 2 ∧
    SinkId.viewerSink ∈ w.recs ∧
    (SinkId.fileSink ∈ w.recs ↔ filenameTruthy filename = true) ∧
    (∀ ops : List (Op Act Opts), (w.runOps ops).recs = w.recs) ∧
    (∀ w' : RenderRerun S Obs Act R Info Opts Frame, w'.render.recs = w'.recs) ∧
    (∀ (w' : RenderRerun S Obs Act R Info Opts Frame) (output : StepOutput Obs R Info)
      (action : Act), (w'.logger output action).recs = w'.recs) ∧
    (∀ (w' : RenderRerun S Obs Act R Info Opts Frame) (n : String),
      (w'.update_blueprint n).recs = w'.recs) := by
  obtain ⟨-, -, -, -, -, -, hrecs, -, -⟩ := init_ok_fields env s0 filename sk v w h
  refine ⟨hrecs, ?_, ?_, ?_, ?_, run_recs w, fun w' => rfl, logger_recs, ub_recs⟩
  · rw [hrecs]
    rcases filenameTruthy filename <;> simp
  · rw [hrecs]
    rcases filenameTruthy filename <;> simp
  · rw [hrecs]
    rcases filenameTruthy filename <;> simp
  · rw [hrecs]
    rcases hft : filenameTruthy filename <;> simp [hft]

/-- C2 amended witness at a concrete input: no filename, no viewer. -/
theorem C2_amended_witness :
    wExample.recs = (if filenameTruthy none then [SinkId.fileSink] else []) ++
      [SinkId.viewerSink] ∧
    1 ≤ wExample.recs.length ∧ wExample.recs.length ≤ 2 ∧
    SinkId.viewerSink ∈ wExample.recs :=
  ⟨(C2_amended E0 0 none 0 Viewer.off wExample rfl).1,
   (C2_amended E0 0 none 0 Viewer.off wExample rfl).2.1,
   (C2_amended E0 0 none 0 Viewer.off wExample rfl).2.2.1,
   (C2_amended E0 0 none 0 Viewer.off wExample rfl).2.2.2.1⟩

/-- C3: for every wrapper state and every sequence of reset/step calls, the
values the wrapper returns are exactly the values the bare wrapped
environment returns for the same call sequence — the wrapper is a pure
pass-through on return values. -/
theorem C3_pass_through [ToString R] [ToString Act]
    (w : RenderRerun S Obs Act R Info Opts Frame) (ops : List (Op Act Opts)) :
    w.runOutputs ops = w.env.runOutputs w.envState ops :=
  runOutputs_eq w ops

/-- C4: after any interleaved sequence of reset and step calls following
construction, the episode counter equals the number of reset calls made so
far and the frame counter equals the number of step calls since the most
recent reset (or since construction when no reset occurred); moreover the
episode counter is never decremented by any operation and the frame counter
is incremented exactly once per step regardless of logging eligibility. -/
theorem C4_counters [ToString R] [ToString Act]
    (env : GymEnv S Obs Act R Info Opts Frame) (s0 : S) (filename : Option String)
    (sk : Nat) (v : Viewer) (w0 : RenderRerun S Obs Act R Info Opts Frame)
    (h : RenderRerun.init env s0 filename sk v = Except.ok w0)
    (ops : List (Op Act Opts)) :
    (w0.runOps ops).episode = countResets ops ∧
    (w0.runOps ops).frame = countTrailingSteps ops ∧
    (∀ (w : RenderRerun S Obs Act R Info Opts Frame) (op : Op Act Opts),
      w.episode ≤ (w.applyOp op).episode) ∧
    (∀ (w : RenderRerun S Obs Act R Info Opts Frame) (a : Act),
      (w.step a).1.frame = w.frame + 1) := by
  obtain ⟨-, -, he, hf, -, -, -, -, -⟩ := init_ok_fields env s0 filename sk v w0 h
  refine ⟨?_, run_frame w0 ops hf, applyOp_episode_monotone, step_frame⟩
  rw [run_episode, he, Nat.zero_add]

/-- C4 witness at a concrete input: reset, step, step, reset, step gives
episode counter 2 and frame counter 1. -/
theorem C4_counters_witness :
    (wExample.runOps opsA).episode = countResets opsA ∧
    (wExample.runOps opsA).frame = countTrailingSteps opsA ∧
    wExample.episode ≤ (wExample.applyOp (Op.step 3)).episode ∧
    (wExample.step 3).1.frame = wExample.frame + 1 :=
  ⟨(C4_counters E0 0 none 0 Viewer.off wExample rfl opsA).1,
   (C4_counters E0 0 none 0 Viewer.off wExample rfl opsA).2.1,
   (C4_counters E0 0 none 0 Viewer.off wExample rfl opsA).2.2.1 wExample (Op.step 3),
   (C4_counters E0 0 none 0 Viewer.off wExample rfl opsA).2.2.2 wExample 3⟩

/-- C5: a step call invokes the logging routine (observable: the trace
grows) exactly when the skip-interval is 0 or 1 or the episode counter
modulo the skip-interval equals 1; with skip-interval 100 exactly the
episodes of the form 100j+1 (1, 101, 201, ...) are eligible, with 4 exactly
4j+1 (1, 5, 9, ...), with 0 or 1 every episode, and for any skip-interval
greater than 1 episode 0 is never eligible. -/
theorem C5_eligibility [ToString R] [ToString Act]
    (w : RenderRerun S Obs Act R Info Opts Frame) (a : Act) (hr : w.recs ≠ []) :
    (((w.step a).1.events.length ≠ w.events.length) ↔
      (w.skip_episodes = 0 ∨ w.skip_episodes = 1 ∨
        w.episode % w.skip_episodes = 1)) ∧
    (∀ e, shouldLog 100 e = true ↔ ∃ j, e = 100 * j + 1) ∧
    (∀ e, shouldLog 4 e = true ↔ ∃ j, e = 4 * j + 1) ∧
    (∀ e, shouldLog 0 e = true) ∧
    (∀ e, shouldLog 1 e = true) ∧
    (∀ n, 1 < n → shouldLog n 0 = false) := by
  refine ⟨?_, shouldLog_100, shouldLog_4, shouldLog_0, shouldLog_1, shouldLog_gt1_zero⟩
  rw [step_logged_iff w a hr, shouldLog_iff]

/-- C5 witness at a concrete input: skip 100 keeps episode 101 and 4 keeps
episode 5; skip 0 and 1 keep everything; skip 7 drops episode 0. -/
theorem C5_eligibility_witness :
    (((wExample.step 0).1.events.length ≠ wExample.events.length) ↔
      (wExample.skip_episodes = 0 ∨ wExample.skip_episodes = 1 ∨
        wExample.episode % wExample.skip_episodes = 1)) ∧
    (shouldLog 100 101 = true ↔ ∃ j, 101 = 100 * j + 1) ∧
    (shouldLog 4 5 = true ↔ ∃ j, 5 = 4 * j + 1) ∧
    shouldLog 0 9 = true ∧
    shouldLog 1 9 = true ∧
    shouldLog 7 0 = false :=
  ⟨(C5_eligibility wExample 0 (by decide)).1,
   (C5_eligibility wExample 0 (by decide)).2.1 101,
   (C5_eligibility wExample 0 (by decide)).2.2.1 5,
   (C5_eligibility wExample 0 (by decide)).2.2.2.1 9,
   (C5_eligibility wExample 0 (by decide)).2.2.2.2.1 9,
   (C5_eligibility wExample 0 (by decide)).2.2.2.2.2 7 (by decide)⟩

/-- C6: at every state reachable from construction, the tab names are
pairwise distinct (at most one tab per episode label); every further
operation only appends tabs (never removes or reorders them); a step call
adds blueprint sends exactly for the tabs it newly inserts (one send per
recording stream and new tab, so no re-send when no tab is added); and a
step inside an already-registered episode inserts no further tab. -/
theorem C6_blueprint [ToString R] [ToString Act]
    (env : GymEnv S Obs Act R Info Opts Frame) (s0 : S) (filename : Option String)
    (sk : Nat) (v : Viewer) (w0 : RenderRerun S Obs Act R Info Opts Frame)
    (h : RenderRerun.init env s0 filename sk v = Except.ok w0)
    (ops : List (Op Act Opts)) :
    (((w0.runOps ops).tabs.map Tab.name).Nodup) ∧
    (∀ op : Op Act Opts,
      ∃ ts, ((w0.runOps ops).applyOp op).tabs = (w0.runOps ops).tabs ++ ts) ∧
    (∀ a : Act,
      countBPSends ((w0.runOps ops).step a).1.events =
        countBPSends (w0.runOps ops).events +
          (((w0.runOps ops).step a).1.tabs.length - (w0.runOps ops).tabs.length) *
            (w0.runOps ops).recs.length) ∧
    (∀ a : Act,
      episodeName (w0.runOps ops).episode ∈ (w0.runOps ops).episode_names →
        ((w0.runOps ops).step a).1.tabs = (w0.runOps ops).tabs) := by
  obtain ⟨-, -, -, -, -, -, -, hnames, htabs⟩ := init_ok_fields env s0 filename sk v w0 h
  have hinv : namesInv w0 := by
    constructor
    · rw [hnames, htabs]
      rfl
    · rw [htabs]
      simp
  exact ⟨(run_namesInv w0 ops hinv).2, applyOp_tabs_append _,
    fun a => step_countBP _ a, fun a => step_tabs_stable _ a⟩

/-- C6 witness at a concrete input: after reset and one logged step of
episode 1, a further step inserts no tab and re-sends no blueprint. -/
theorem C6_blueprint_witness :
    (((wExample.runOps opsB).tabs.map Tab.name).Nodup) ∧
    (∃ ts, ((wExample.runOps opsB).applyOp (Op.step 4)).tabs =
      (wExample.runOps opsB).tabs ++ ts) ∧
    (countBPSends ((wExample.runOps opsB).step 4).1.events =
      countBPSends (wExample.runOps opsB).events +
        (((wExample.runOps opsB).step 4).1.tabs.length -
          (wExample.runOps opsB).tabs.length) * (wExample.runOps opsB).recs.length) ∧
    ((wExample.runOps opsB).step 4).1.tabs = (wExample.runOps opsB).tabs :=
  ⟨(C6_blueprint E0 0 none 0 Viewer.off wExample rfl opsB).1,
   (C6_blueprint E0 0 none 0 Viewer.off wExample rfl opsB).2.1 (Op.step 4),
   (C6_blueprint E0 0 none 0 Viewer.off wExample rfl opsB).2.2.1 4,
   (C6_blueprint E0 0 none 0 Viewer.off wExample rfl opsB).2.2.2 4 (by decide)⟩

/-- C7: when the logging routine runs, each recording stream receives, in
order: its time set to the current frame counter on the "frame" timeline,
the stringified reward and (after the conditional markers) the stringified
action under the current episode's label, a "DONE!" marker exactly when the
step's terminated flag is true, an "Interrupted" marker exactly when the
truncated flag is true, and one frame image obtained from the wrapped
environment's render, compressed as JPEG at quality 95. -/
theorem C7_logger [ToString R] [ToString Act]
    (w : RenderRerun S Obs Act R Info Opts Frame)
    (output : StepOutput Obs R Info) (action : Act) (q : SinkId)
    (hq : q ∈ w.recs) (hnd : w.recs.Nodup) :
    sinkDataEvents q (w.logger output action).events =
      sinkDataEvents q w.events ++
        loggedEvents (episodeName w.episode) (toString output.reward) (toString action)
          output.terminated output.truncated
          { frame := w.env.renderFn w.envState, jpeg_quality := 95 } w.frame :=
  logger_sinkData w output action q hq hnd

/-- C7 witness at a concrete input: the viewer stream of the example
wrapper, a terminated step output with reward 5 and action 3. -/
theorem C7_logger_witness :
    sinkDataEvents SinkId.viewerSink (wExample.logger outExample 3).events =
      sinkDataEvents SinkId.viewerSink wExample.events ++
        loggedEvents (episodeName wExample.episode) (toString outExample.reward)
          (toString (3 : Nat)) outExample.terminated outExample.truncated
          { frame := wExample.env.renderFn wExample.envState, jpeg_quality := 95 }
          wExample.frame :=
  C7_logger wExample outExample 3 SinkId.viewerSink (by decide) (by decide)

theorem filter_isEnvClose_disconnects (l : List SinkId) :
    ((l.map fun s => TraceEvent.sink s RerunEvent.disconnect : List (TraceEvent Frame)).filter
      isEnvClose) = [] := by
  induction l with
  | nil => rfl
  | cons s t ih =>
    simp only [List.map_cons, List.filter_cons]
    rw [show isEnvClose (TraceEvent.sink s RerunEvent.disconnect : TraceEvent Frame) = false from rfl]
    simpa using ih

/-- C8: for every wrapper state and every behaviour of the per-stream
disconnects, close records a disconnect attempt on every stream of the sink
list in order and then delegates to the wrapped environment's close exactly
once; which disconnects raise makes no difference to the result (each
per-stream failure is caught and not propagated). -/
theorem C8_close (w : RenderRerun S Obs Act R Info Opts Frame)
    (raises : SinkId → Bool) :
    (w.close raises).events =
      w.events ++ (w.recs.map fun s => TraceEvent.sink s RerunEvent.disconnect) ++
        [TraceEvent.env_close] ∧
    ((w.close raises).events.filter isEnvClose).length =
      (w.events.filter isEnvClose).length + 1 ∧
    (∀ raises' : SinkId → Bool, w.close raises = w.close raises') := by
  refine ⟨close_events w raises, ?_, close_raises_independent w raises⟩
  rw [close_events, List.filter_append, List.filter_append,
    filter_isEnvClose_disconnects]
  simp [isEnvClose]

/-- C9: construction fails (with an assertion error, before any stream is
created) exactly on an environment whose render mode is undefined or ends in
"_list"; on a defined non-list render mode it passes both checks and the
wrapper's `render_mode` property equals the wrapped environment's render
mode with the "_rerun" suffix appended. -/
theorem C9_render_mode (env : GymEnv S Obs Act R Info Opts Frame) (s0 : S)
    (filename : Option String) (sk : Nat) (v : Viewer) :
    (env.render_mode = none →
      ∃ msg, RenderRerun.init env s0 filename sk v = Except.error msg) ∧
    (∀ m, env.render_mode = some m → strEndsWith m "_list" = true →
      ∃ msg, RenderRerun.init env s0 filename sk v = Except.error msg) ∧
    (∀ m, env.render_mode = some m → strEndsWith m "_list" = false →
      ∃ w, RenderRerun.init env s0 filename sk v = Except.ok w ∧
        w.render_mode = m ++ "_rerun") := by
  refine ⟨?_, ?_, ?_⟩
  · intro hm
    simp only [RenderRerun.init, hm]
    exact ⟨_, rfl⟩
  · intro m hm hl
    simp only [RenderRerun.init, hm, hl, if_true]
    exact ⟨_, rfl⟩
  · intro m hm hl
    simp only [RenderRerun.init, hm, hl, Bool.false_eq_true, if_false]
    refine ⟨_, rfl, ?_⟩
    simp [RenderRerun.render_mode, hm]

/-- C9 witness at concrete inputs: an environment with no render mode and
one with a "_list" render mode are rejected; "rgb_array" is accepted and the
derived render mode is "rgb_array_rerun". -/
theorem C9_render_mode_witness :
    (∃ msg, RenderRerun.init ENone 0 none 100 Viewer.off = Except.error msg) ∧
    (∃ msg, RenderRerun.init EList 0 none 100 Viewer.off = Except.error msg) ∧
    (∃ w, RenderRerun.init E0 0 none 100 Viewer.off = Except.ok w ∧
      w.render_mode = "rgb_array" ++ "_rerun") :=
  ⟨(C9_render_mode ENone 0 none 100 Viewer.off).1 rfl,
   (C9_render_mode EList 0 none 100 Viewer.off).2.1 "rgb_array_list" rfl (by decide),
   (C9_render_mode E0 0 none 100 Viewer.off).2.2 "rgb_array" rfl (by decide)⟩

/-- C10: a step executed after `ops` is the k-th step since the most recent
reset for k = countTrailingSteps ops + 1; when it is logged, the events it
appends set each recording stream's "frame" timeline to position k − 1, so
the first logged step of an episode sits at position 0 and positions within
an episode count 0, 1, 2, ... -/
theorem C10_timeline [ToString R] [ToString Act]
    (env : GymEnv S Obs Act R Info Opts Frame) (s0 : S) (filename : Option String)
    (sk : Nat) (v : Viewer) (w0 : RenderRerun S Obs Act R Info Opts Frame)
    (h : RenderRerun.init env s0 filename sk v = Except.ok w0)
    (ops : List (Op Act Opts)) (a : Act)
    (hlog : shouldLog (w0.runOps ops).skip_episodes (w0.runOps ops).episode = true) :
    countTrailingSteps (ops ++ [Op.step a]) = countTrailingSteps ops + 1 ∧
    (∃ new, ((w0.runOps ops).step a).1.events = (w0.runOps ops).events ++ new ∧
      setTimes new = (w0.runOps ops).recs.map
        fun s => (s, "frame", countTrailingSteps ops + 1 - 1)) := by
  obtain ⟨-, -, -, hf, -, -, -, -, -⟩ := init_ok_fields env s0 filename sk v w0 h
  constructor
  · simp [countTrailingSteps, List.reverse_append, Op.isStep]
  · obtain ⟨new, hev, hst⟩ := logger_setTimes
      { w0.runOps ops with envState := ((w0.runOps ops).env.stepFn (w0.runOps ops).envState a).1 }
      ((w0.runOps ops).env.stepFn (w0.runOps ops).envState a).2 a
    refine ⟨new, ?_, ?_⟩
    · rw [step_events_of_log (w0.runOps ops) a hlog]
      exact hev
    · rw [hst, Nat.add_sub_cancel, ← run_frame w0 ops hf]

/-- C10 witness at a concrete input: after a reset and one step, the next
logged step is step 2 of the episode and is logged at timeline position 1. -/
theorem C10_timeline_witness :
    countTrailingSteps (opsB ++ [Op.step 2]) = countTrailingSteps opsB + 1 ∧
    (∃ new, ((wExample.runOps opsB).step 2).1.events = (wExample.runOps opsB).events ++ new ∧
      setTimes new = (wExample.runOps opsB).recs.map
        fun s => (s, "frame", countTrailingSteps opsB + 1 - 1)) :=
  C10_timeline E0 0 none 0 Viewer.off wExample rfl opsB 2 (by decide)

end GymRerun
